import Mathlib

/-!
Verification of the Deployment-app pipeline (build runner, log publisher,
log consumer, webhook dispatcher, object-store key conventions) against its
natural-language specification.

The JavaScript/TypeScript source is shallowly embedded: each effectful step
(broker send, analytics insert, offset commit, S3 upload, process exit) is
recorded as an event in a trace, and the outcomes of external calls
(insert success, upload success, connect/send success) are inputs to the
embedded functions, so every definition is executable and claims can be
checked on concrete inputs.
-/

/-! ## String helpers with JavaScript semantics -/

/-- Boolean list-prefix test (used to model `String.prototype.startsWith`
and the position-0 case of `String.prototype.replace`). -/
def lStartsWith : List Char → List Char → Bool
  | [], _ => true
  | _ :: _, [] => false
  | a :: xs, b :: ys => a == b && lStartsWith xs ys

/-- Boolean substring test on lists: does the second list contain the first
as a contiguous run? Models `String.prototype.includes`. -/
def lIncludes (pat : List Char) : List Char → Bool
  | [] => lStartsWith pat []
  | c :: rest => lStartsWith pat (c :: rest) || lIncludes pat rest

/-- JavaScript `haystack.includes(needle)`. -/
def strIncludes (haystack needle : String) : Bool :=
  lIncludes needle.data haystack.data

/-- JavaScript `s.startsWith(pat)`. -/
def strStartsWith (s pat : String) : Bool :=
  lStartsWith pat.data s.data

/-- Replacement of the first occurrence of `pat` by `rep`, on lists;
models `String.prototype.replace` with a string pattern, which replaces
only the first occurrence. -/
def jsReplaceFirstL (pat rep : List Char) : List Char → List Char
  | [] => if pat.isEmpty then rep else []
  | c :: rest =>
    if lStartsWith pat (c :: rest) then rep ++ (c :: rest).drop pat.length
    else c :: jsReplaceFirstL pat rep rest

/-- JavaScript `s.replace(pat, rep)` with a string pattern: replaces the
first occurrence only. -/
def jsReplaceFirst (s pat rep : String) : String :=
  ⟨jsReplaceFirstL pat.data rep.data s.data⟩

/-- JavaScript `x || d` where `x` is a string field that may be
null/undefined (`none`): falls back to `d` for `none` and for the empty
string (which is falsy in JavaScript). -/
def jsOrString : Option String → String → String
  | none, d => d
  | some s, d => if s = "" then d else s

/-- JavaScript `x || emptyObject` for a nullable string field: `none` stands
for the empty-object fallback, and the falsy empty string also falls back. -/
def jsOrEmptyObj : Option String → Option String
  | none => none
  | some s => if s = "" then none else some s

/-- UTF-8 byte length of a string, as `Buffer.from(s).length` computes it. -/
def utf8Len (s : String) : Nat :=
  s.data.foldl (fun n c => n + c.utf8Size) 0

/-! ## Log Consumer (server.js `initializeKafkaConsumer`)

The consumer subscribes to topic "build-logs" with `autoCommit: false` and
runs an `eachBatch` handler.  For each message with a non-null value it
parses `{DEPLOYEMENT_ID, log}`, sets the `isUploadComplete` flag when the
log line contains "Upload complete", and then, inside one `try/catch`,
inserts the row into ClickHouse table `log_events`, commits the offset for
exactly that topic/partition/offset coordinate, and heartbeats; the `catch`
only logs the error.  After the per-message loop, if the flag is set it
disconnects and calls `process.exit(0)`. -/

/-- Sentinel substring the consumer looks for in a log line
(`log.includes("Upload complete")`). -/
def sentinelText : String := "Upload complete"

/-- Kafka message as the consumer sees it: an offset and an optional parsed
value `(DEPLOYEMENT_ID, log)`; `none` models a message whose `value` is
null, which the loop skips via `continue`. -/
structure KafkaMessage where
  offset : Nat
  value : Option (String × String)
deriving DecidableEq

/-- Observable step of the consumer loop. -/
inductive ConsumerEvent where
  | insertAttempt (deploymentId : String) (log : String)
  | insertErrorLogged
  | commitOffset (partition : Nat) (offset : Nat)
  | heartbeat
  | disconnect
  | exitProcess (code : Nat)
deriving DecidableEq

/-- Per-message body of the `for (const message of messages)` loop.
`insertOk` gives the outcome of the ClickHouse insert for the message.
Returns the updated `isUploadComplete` flag and the events emitted:
a successful insert is followed by the per-message offset commit and a
heartbeat; a failed insert is only logged (`catch (err) {console.log(err)\x7d`),
so the commit and heartbeat inside the same `try` are skipped. -/
def processMessage (insertOk : KafkaMessage → Bool) (partition : Nat)
    (isUploadComplete : Bool) (m : KafkaMessage) : Bool × List ConsumerEvent :=
  match m.value with
  | none => (isUploadComplete, [])
  | some (dep, log) =>
    let flag := isUploadComplete || strIncludes log sentinelText
    if insertOk m then
      (flag, [.insertAttempt dep log, .commitOffset partition m.offset, .heartbeat])
    else
      (flag, [.insertAttempt dep log, .insertErrorLogged])

/-- The whole per-batch message loop, threading the `isUploadComplete`
flag and concatenating the emitted events in order. -/
def processMessages (insertOk : KafkaMessage → Bool) (partition : Nat) :
    Bool → List KafkaMessage → Bool × List ConsumerEvent
  | flag, [] => (flag, [])
  | flag, m :: rest =>
    let r1 := processMessage insertOk partition flag m
    let r2 := processMessages insertOk partition r1.1 rest
    (r2.1, r1.2 ++ r2.2)

/-- One `eachBatch` invocation: run the message loop, then, if the
`isUploadComplete` flag is set, disconnect and `process.exit(0)`.
Returns the final flag (true iff the process exited) and the event trace. -/
def eachBatch (insertOk : KafkaMessage → Bool) (partition : Nat)
    (flag : Bool) (msgs : List KafkaMessage) : Bool × List ConsumerEvent :=
  let r := processMessages insertOk partition flag msgs
  if r.1 then (true, r.2 ++ [.disconnect, .exitProcess 0]) else (false, r.2)

/-- Does this message's log line contain the completion sentinel? -/
def msgHasSentinel (m : KafkaMessage) : Bool :=
  match m.value with
  | some (_, log) => strIncludes log sentinelText
  | none => false

/-- Expected event contribution of one message on the all-successful path:
insert, commit of exactly this message's offset, heartbeat. -/
def happyMessageEvents (partition : Nat) (m : KafkaMessage) : List ConsumerEvent :=
  match m.value with
  | some (dep, log) =>
    [.insertAttempt dep log, .commitOffset partition m.offset, .heartbeat]
  | none => []

/-! ## Log Consumer timeout (server.js, `setTimeout` after `consumer.run`)

After `consumer.run` starts the batch loop, the code arms
`setTimeout(() => process.exit(1), 30 * 60 * 1000)`.  The timeline model
below feeds the consumer a schedule of batches with arrival times: the
process exits with status 0 at the arrival of the first batch containing
the sentinel if that happens before the timeout, and otherwise the timer
fires at the timeout instant and the process exits with status 1. -/

/-- Hard wall-clock timeout in milliseconds: `30 * 60 * 1000`. -/
def consumerTimeoutMs : Nat := 30 * 60 * 1000

/-- Batch of messages together with its arrival time (ms since the
consumer started). -/
structure TimedBatch where
  arrivalMs : Nat
  messages : List KafkaMessage

/-- Does some message of the batch carry the completion sentinel? -/
def batchHasSentinel (b : TimedBatch) : Bool :=
  b.messages.any msgHasSentinel

/-- Arrival time of the first batch containing the sentinel, if any. -/
def firstSentinelArrival (batches : List TimedBatch) : Option Nat :=
  batches.findSome? fun b =>
    if batchHasSentinel b then some b.arrivalMs else none

/-- Termination point of the consumer process on a given schedule of
batches: `(time, exit code)`.  Sentinel before the timeout: exit 0 at its
arrival (end of that batch); otherwise the armed timer fires at
`consumerTimeoutMs` and the process exits 1. -/
def consumerTermination (batches : List TimedBatch) : Nat × Nat :=
  match firstSentinelArrival batches with
  | some t => if t < consumerTimeoutMs then (t, 0) else (consumerTimeoutMs, 1)
  | none => (consumerTimeoutMs, 1)

/-! ## Claims C1, C2, C7 -/

/-- Helper: the message loop on an all-successful, no-null-value batch
produces exactly the happy-path events in batch order, and the final flag
is the initial flag or-ed with "some message carries the sentinel". -/
theorem processMessages_happy (insertOk : KafkaMessage → Bool) (partition : Nat)
    (flag : Bool) (msgs : List KafkaMessage)
    (hok : ∀ m ∈ msgs, insertOk m = true)
    (hv : ∀ m ∈ msgs, m.value ≠ none) :
    processMessages insertOk partition flag msgs =
      (flag || msgs.any msgHasSentinel, msgs.flatMap (happyMessageEvents partition)) := by
  induction msgs generalizing flag with
  | nil => simp [processMessages]
  | cons m rest ih =>
    have hm : insertOk m = true := hok m (by simp)
    have hmv : m.value ≠ none := hv m (by simp)
    obtain ⟨p, hp⟩ : ∃ p, m.value = some p := by
      cases h : m.value with
      | none => exact absurd h hmv
      | some p => exact ⟨p, rfl⟩
    obtain ⟨dep, log⟩ := p
    rw [processMessages]
    rw [ih _ (fun x hx => hok x (by simp [hx])) (fun x hx => hv x (by simp [hx]))]
    simp [processMessage, hp, hm, happyMessageEvents, msgHasSentinel, Bool.or_assoc]

/-- C2: if every message of a batch has a value and every insert succeeds,
the consumer, starting with the completion flag unset, first processes every
message in batch order (insert, then that message's offset commit, then a
heartbeat), and only after the whole batch appends the disconnect and the
success exit — and it does so exactly when some message of the batch
contains the sentinel text; with no sentinel in the batch there is no exit. -/
theorem consumer_batch_sentinel_exit (insertOk : KafkaMessage → Bool)
    (partition : Nat) (msgs : List KafkaMessage)
    (hok : ∀ m ∈ msgs, insertOk m = true)
    (hv : ∀ m ∈ msgs, m.value ≠ none) :
    eachBatch insertOk partition false msgs =
      (msgs.any msgHasSentinel,
       msgs.flatMap (happyMessageEvents partition) ++
         (if msgs.any msgHasSentinel then
            [ConsumerEvent.disconnect, ConsumerEvent.exitProcess 0]
          else [])) := by
  rw [eachBatch, processMessages_happy insertOk partition false msgs hok hv]
  by_cases h : msgs.any msgHasSentinel
  · simp [h]
  · simp [h]

/-- Witness for C2 on a concrete two-message batch whose second message
carries the sentinel: the trace is the two happy-path message groups in
order followed by disconnect and exit 0. -/
theorem consumer_batch_sentinel_exit_witness :
    eachBatch (fun _ => true) 0 false
        [⟨4, some ("d1", "building")⟩, ⟨5, some ("d1", "Upload complete...")⟩] =
      (true,
       [ConsumerEvent.insertAttempt "d1" "building",
        ConsumerEvent.commitOffset 0 4, ConsumerEvent.heartbeat,
        ConsumerEvent.insertAttempt "d1" "Upload complete...",
        ConsumerEvent.commitOffset 0 5, ConsumerEvent.heartbeat,
        ConsumerEvent.disconnect, ConsumerEvent.exitProcess 0]) := by
  have h := consumer_batch_sentinel_exit (fun _ => true) 0
    [⟨4, some ("d1", "building")⟩, ⟨5, some ("d1", "Upload complete...")⟩]
    (by intro m _; rfl) (by decide)
  rw [h]
  decide

/-- C1 counterexample: a one-message batch whose ClickHouse insert fails.
The claim says the offset commit for that message's coordinate happens
exactly as after a successful insert; in the code the commit sits inside
the same `try` as the insert, so a failed insert skips it.  With the
failing insert the trace contains no commit for offset 5 (only the logged
error), while the identical batch with a succeeding insert does commit. -/
theorem consumer_insertFailure_commit_skipped_cex :
    ConsumerEvent.commitOffset 0 5 ∉
        (eachBatch (fun _ => false) 0 false [⟨5, some ("d1", "hello")⟩]).2 ∧
      ConsumerEvent.insertErrorLogged ∈
        (eachBatch (fun _ => false) 0 false [⟨5, some ("d1", "hello")⟩]).2 ∧
      ConsumerEvent.commitOffset 0 5 ∈
        (eachBatch (fun _ => true) 0 false [⟨5, some ("d1", "hello")⟩]).2 := by
  decide

/-- C1 as amended: when a message's insert fails, the consumer logs the
error, makes no second insert attempt, skips that message's offset commit
and heartbeat, and moves on to the rest of the batch unchanged (the
message is abandoned, not retried; its offset is not committed). -/
theorem consumer_insertFailure_logged_no_retry_commit_skipped
    (insertOk : KafkaMessage → Bool) (partition : Nat) (flag : Bool)
    (m : KafkaMessage) (rest : List KafkaMessage) (dep log : String)
    (hv : m.value = some (dep, log)) (hf : insertOk m = false) :
    processMessages insertOk partition flag (m :: rest) =
      ((processMessages insertOk partition
          (flag || strIncludes log sentinelText) rest).1,
       ConsumerEvent.insertAttempt dep log :: ConsumerEvent.insertErrorLogged ::
         (processMessages insertOk partition
           (flag || strIncludes log sentinelText) rest).2) := by
  rw [processMessages]
  simp [processMessage, hv, hf]

/-- Witness for the amended C1 at a concrete failed-insert message. -/
theorem consumer_insertFailure_logged_no_retry_commit_skipped_witness :
    processMessages (fun _ => false) 0 false [⟨5, some ("d1", "hello")⟩] =
      (false, [ConsumerEvent.insertAttempt "d1" "hello",
               ConsumerEvent.insertErrorLogged]) := by
  have h := consumer_insertFailure_logged_no_retry_commit_skipped
    (fun _ => false) 0 false ⟨5, some ("d1", "hello")⟩ [] "d1" "hello" rfl rfl
  rw [h]
  decide

/-- C7: on any schedule with no sentinel in any batch, the consumer process
still terminates, with failure status 1, exactly at the configured
30-minute wall-clock timeout (1,800,000 ms) — the armed timer is
independent of the batch loop. -/
theorem consumer_timeout_guarantees_exit (batches : List TimedBatch)
    (h : ∀ b ∈ batches, batchHasSentinel b = false) :
    consumerTermination batches = (consumerTimeoutMs, 1) ∧
      (consumerTermination batches).1 ≤ consumerTimeoutMs ∧
      consumerTimeoutMs = 1800000 := by
  have hnone : firstSentinelArrival batches = none := by
    rw [firstSentinelArrival, List.findSome?_eq_none_iff]
    intro b hb
    simp [h b hb]
  refine ⟨?_, ?_, rfl⟩
  · rw [consumerTermination, hnone]
  · rw [consumerTermination, hnone]

/-- Witness for C7 on a concrete sentinel-free schedule. -/
theorem consumer_timeout_guarantees_exit_witness :
    consumerTermination
        [⟨1000, [⟨0, some ("d1", "building")⟩]⟩, ⟨2000, [⟨1, none⟩]⟩] =
      (consumerTimeoutMs, 1) := by
  exact (consumer_timeout_guarantees_exit
    [⟨1000, [⟨0, some ("d1", "building")⟩]⟩, ⟨2000, [⟨1, none⟩]⟩]
    (by decide)).1

/-! ## Build Runner (script.js `InitializeScript` close handler)

On the child process's `close` event the runner publishes
`"Build complete with code <code>"`, reads the output directory with
`fs.readdirSync(distDir, {recursive: true\x7d)`, and for each listed entry
skips directories (`lstatSync(...).isDirectory()`), publishes
`"Uploading <distDir>/<relPath>..."`, and sends a `PutObjectCommand` with
`Key: "__outputs/<PROJECT_ID>/<relPath>"` and
`ContentType: mime.lookup(filePath)` (which is `false` when inference
fails — there is no explicit octet-stream fallback in the code).  After the
loop it publishes "Upload complete..." and calls `process.exit(0)`; any
exception in the handler (directory read, an upload) lands in the `catch`,
which logs the error and calls `process.exit(1)`.

Outcomes of external calls are inputs: `distFiles = none` models
`readdirSync` throwing (for example the directory being absent),
`uploadOk` gives each file upload's outcome, `mimeLookup` is the
`mime.lookup` table (`none` models its `false` result).  Each `publishLine`
event stands for the paired `console.log` + `publishLog` of that line;
`RunnerEvent.line` spells out the published text of each event. -/

/-- Object-store key prefix the runner uploads under:
`__outputs/<PROJECT_ID>/`. -/
def artifactKeyPrefix (projectId : String) : String :=
  "__outputs/" ++ projectId ++ "/"

/-- Entry of the recursive output-directory listing: a path relative to the
output directory, and whether `lstatSync` says it is a directory. -/
structure DistEntry where
  relPath : String
  isDir : Bool
deriving DecidableEq

/-- Observable step of the close handler. -/
inductive RunnerEvent where
  | publishBuildComplete (code : Int)
  | publishUploading (filePath : String)
  | s3Upload (key : String) (contentType : Option String)
  | publishUploadComplete
  | errorLogged
  | exitProcess (code : Nat)
deriving DecidableEq

/-- Literal log line published by each publish-type event, tying the event
constructors to the strings in the source. -/
def RunnerEvent.line : RunnerEvent → Option String
  | .publishBuildComplete code => some ("Build complete with code " ++ toString code)
  | .publishUploading filePath => some ("Uploading " ++ filePath ++ "...")
  | .publishUploadComplete => some "Upload complete..."
  | _ => none

/-- Upload loop over the directory listing, in listing order: directories
are skipped; for a file, the "Uploading ..." line is published and then the
upload is attempted; a throwing upload aborts the loop with the pending
events.  Returns the events and whether the loop ran to completion. -/
def uploadFiles (projectId distDir : String) (uploadOk : String → Bool)
    (mimeLookup : String → Option String) :
    List DistEntry → List RunnerEvent × Bool
  | [] => ([], true)
  | e :: rest =>
    if e.isDir then uploadFiles projectId distDir uploadOk mimeLookup rest
    else
      let filePath := distDir ++ "/" ++ e.relPath
      let pubEv := RunnerEvent.publishUploading filePath
      if uploadOk e.relPath then
        let r := uploadFiles projectId distDir uploadOk mimeLookup rest
        (pubEv ::
          RunnerEvent.s3Upload (artifactKeyPrefix projectId ++ e.relPath)
            (mimeLookup filePath) :: r.1,
         r.2)
      else ([pubEv], false)

/-- The `close` handler: the "Build complete" line, then directory read,
upload loop, sentinel publish and `process.exit(0)` on success, or the
`catch` (log + `process.exit(1)`) when the read or an upload throws. -/
def closeHandler (projectId distDir : String) (exitCode : Int)
    (distFiles : Option (List DistEntry)) (uploadOk : String → Bool)
    (mimeLookup : String → Option String) : List RunnerEvent :=
  let pub0 := RunnerEvent.publishBuildComplete exitCode
  match distFiles with
  | none => [pub0, .errorLogged, .exitProcess 1]
  | some files =>
    let r := uploadFiles projectId distDir uploadOk mimeLookup files
    if r.2 then
      pub0 :: r.1 ++ [.publishUploadComplete, .exitProcess 0]
    else
      pub0 :: r.1 ++ [.errorLogged, .exitProcess 1]

/-- Expected events of the upload loop when every upload succeeds. -/
def happyUploadEvents (projectId distDir : String)
    (mimeLookup : String → Option String) (files : List DistEntry) :
    List RunnerEvent :=
  files.flatMap fun e =>
    if e.isDir then []
    else
      [RunnerEvent.publishUploading (distDir ++ "/" ++ e.relPath),
       RunnerEvent.s3Upload (artifactKeyPrefix projectId ++ e.relPath)
         (mimeLookup (distDir ++ "/" ++ e.relPath))]

/-- Helper: with every (regular-file) upload succeeding, the upload loop
runs to completion and emits exactly the happy-path events in order. -/
theorem uploadFiles_happy (projectId distDir : String)
    (uploadOk : String → Bool) (mimeLookup : String → Option String)
    (files : List DistEntry)
    (hok : ∀ e ∈ files, e.isDir = false → uploadOk e.relPath = true) :
    uploadFiles projectId distDir uploadOk mimeLookup files =
      (happyUploadEvents projectId distDir mimeLookup files, true) := by
  induction files with
  | nil => simp [uploadFiles, happyUploadEvents]
  | cons e rest ih =>
    have ihr := ih (fun x hx h => hok x (by simp [hx]) h)
    by_cases hd : e.isDir = true
    · rw [uploadFiles]
      simp [hd, ihr, happyUploadEvents]
    · have he : uploadOk e.relPath = true := hok e (by simp) (by simpa using hd)
      rw [uploadFiles]
      simp [hd, he, ihr, happyUploadEvents]

/-- Helper: the upload loop never publishes the sentinel line. -/
theorem uploadFiles_no_sentinel (projectId distDir : String)
    (uploadOk : String → Bool) (mimeLookup : String → Option String)
    (files : List DistEntry) :
    RunnerEvent.publishUploadComplete ∉
      (uploadFiles projectId distDir uploadOk mimeLookup files).1 := by
  induction files with
  | nil => simp [uploadFiles]
  | cons e rest ih =>
    rw [uploadFiles]
    by_cases hd : e.isDir
    · simpa [hd] using ih
    · by_cases hu : uploadOk e.relPath
      · simpa [hd, hu] using ih
      · simp [hd, hu]

/-- Helper: the upload loop never emits a process-exit event. -/
theorem uploadFiles_no_exit (projectId distDir : String)
    (uploadOk : String → Bool) (mimeLookup : String → Option String)
    (files : List DistEntry) (c : Nat) :
    RunnerEvent.exitProcess c ∉
      (uploadFiles projectId distDir uploadOk mimeLookup files).1 := by
  induction files with
  | nil => simp [uploadFiles]
  | cons e rest ih =>
    rw [uploadFiles]
    by_cases hd : e.isDir = true
    · simpa [hd] using ih
    · by_cases hu : uploadOk e.relPath = true
      · simpa [hd, hu] using ih
      · simp [hd, hu]

/-- Helper: last element of a cons-append-two-element list. -/
theorem lastOfConsAppendPair {α : Type} (a x y : α) (l : List α) :
    (a :: (l ++ [x, y])).getLast? = some y := by
  have h : a :: (l ++ [x, y]) = (a :: l ++ [x]) ++ [y] := by simp
  rw [h, List.getLast?_concat]

/-- Helper: a failed regular-file upload makes the loop abort with
completion flag `false`. -/
theorem uploadFiles_fails (projectId distDir : String)
    (uploadOk : String → Bool) (mimeLookup : String → Option String)
    (files : List DistEntry) (e : DistEntry) (he : e ∈ files)
    (hdir : e.isDir = false) (hbad : uploadOk e.relPath = false) :
    (uploadFiles projectId distDir uploadOk mimeLookup files).2 = false := by
  induction files with
  | nil => cases he
  | cons f rest ih =>
    rw [uploadFiles]
    rcases List.mem_cons.mp he with hef | herest
    · subst hef
      simp [hdir, hbad]
    · by_cases hd : f.isDir
      · simpa [hd] using ih herest
      · by_cases hu : uploadOk f.relPath
        · simpa [hd, hu] using ih herest
        · simp [hd, hu]

/-- C3: success side — when the directory read succeeds and every
regular-file upload succeeds, the close-handler trace is exactly the
"Build complete" line, then all upload events in order, then the sentinel
publish immediately followed by the success exit; failure side — when the
read throws or any single upload throws, the sentinel is never published,
no success exit happens, and the trace ends with the failure exit
(status 1) after the error is logged. -/
theorem runner_sentinel_after_uploads_then_exit (projectId distDir : String)
    (exitCode : Int) (distFiles : Option (List DistEntry))
    (uploadOk : String → Bool) (mimeLookup : String → Option String) :
    (∀ files, distFiles = some files →
      (∀ e ∈ files, e.isDir = false → uploadOk e.relPath = true) →
      closeHandler projectId distDir exitCode distFiles uploadOk mimeLookup =
        RunnerEvent.publishBuildComplete exitCode ::
          happyUploadEvents projectId distDir mimeLookup files ++
          [RunnerEvent.publishUploadComplete, RunnerEvent.exitProcess 0]) ∧
    ((distFiles = none ∨
        ∃ files, distFiles = some files ∧
          ∃ e ∈ files, e.isDir = false ∧ uploadOk e.relPath = false) →
      RunnerEvent.publishUploadComplete ∉
          closeHandler projectId distDir exitCode distFiles uploadOk mimeLookup ∧
        RunnerEvent.exitProcess 0 ∉
          closeHandler projectId distDir exitCode distFiles uploadOk mimeLookup ∧
        (closeHandler projectId distDir exitCode distFiles uploadOk
            mimeLookup).getLast? = some (RunnerEvent.exitProcess 1)) := by
  constructor
  · intro files hf hok
    subst hf
    rw [closeHandler, uploadFiles_happy projectId distDir uploadOk mimeLookup files hok]
    simp
  · intro hfail
    rcases hfail with hnone | ⟨files, hf, e, he, hdir, hbad⟩
    · subst hnone
      refine ⟨by simp [closeHandler], by simp [closeHandler], by simp [closeHandler]⟩
    · subst hf
      have h2 := uploadFiles_fails projectId distDir uploadOk mimeLookup files e he hdir hbad
      have hns := uploadFiles_no_sentinel projectId distDir uploadOk mimeLookup files
      have hne := uploadFiles_no_exit projectId distDir uploadOk mimeLookup files 0
      rw [closeHandler]
      simp only [h2, Bool.false_eq_true, if_false]
      refine ⟨?_, ?_, ?_⟩
      · simpa using hns
      · simpa using hne
      · exact lastOfConsAppendPair _ _ _ _

/-- Witness for C3: a concrete run over one regular file and one directory
with every step succeeding, and a concrete run with a failing upload. -/
theorem runner_sentinel_after_uploads_then_exit_witness :
    closeHandler "p1" "dist" 0
        (some [⟨"index.html", false⟩, ⟨"assets", true⟩])
        (fun _ => true) (fun _ => some "text/html") =
      [RunnerEvent.publishBuildComplete 0,
       RunnerEvent.publishUploading "dist/index.html",
       RunnerEvent.s3Upload "__outputs/p1/index.html" (some "text/html"),
       RunnerEvent.publishUploadComplete, RunnerEvent.exitProcess 0] ∧
    RunnerEvent.publishUploadComplete ∉
      closeHandler "p1" "dist" 2 none (fun _ => true) (fun _ => none) := by
  constructor
  · have h := (runner_sentinel_after_uploads_then_exit "p1" "dist" 0
      (some [⟨"index.html", false⟩, ⟨"assets", true⟩])
      (fun _ => true) (fun _ => some "text/html")).1
      [⟨"index.html", false⟩, ⟨"assets", true⟩] rfl (by decide)
    rw [h]
    decide
  · exact ((runner_sentinel_after_uploads_then_exit "p1" "dist" 2 none
      (fun _ => true) (fun _ => none)).2 (Or.inl rfl)).1

/-- C4 counterexample: for a file whose extension yields no content type,
`mime.lookup` returns `false` and the code passes that value through — the
upload carries no content type at all, and in particular no
"application/octet-stream" fallback, contradicting the claimed fallback. -/
theorem runner_contentType_no_fallback_cex :
    RunnerEvent.s3Upload "__outputs/p1/data.xyz" none ∈
        closeHandler "p1" "dist" 0 (some [⟨"data.xyz", false⟩])
          (fun _ => true) (fun _ => none) ∧
      RunnerEvent.s3Upload "__outputs/p1/data.xyz" (some "application/octet-stream") ∉
        closeHandler "p1" "dist" 0 (some [⟨"data.xyz", false⟩])
          (fun _ => true) (fun _ => none) := by
  decide

/-- C4 as amended: on a run whose directory read succeeds and whose uploads
all succeed, every regular file of the recursive listing (nested paths
included) gets an "Uploading <path>..." publish and an upload to key
`__outputs/<project-id>/<relative-path>` whose content type is exactly the
`mime.lookup` result — `none` (no content type, no octet-stream fallback)
when inference fails; and every upload event in the trace corresponds to a
regular file, so directories are never uploaded. -/
theorem runner_uploads_every_regular_file (projectId distDir : String)
    (exitCode : Int) (files : List DistEntry) (uploadOk : String → Bool)
    (mimeLookup : String → Option String)
    (hok : ∀ e ∈ files, e.isDir = false → uploadOk e.relPath = true) :
    (∀ e ∈ files, e.isDir = false →
      RunnerEvent.publishUploading (distDir ++ "/" ++ e.relPath) ∈
          closeHandler projectId distDir exitCode (some files) uploadOk mimeLookup ∧
        RunnerEvent.s3Upload (artifactKeyPrefix projectId ++ e.relPath)
            (mimeLookup (distDir ++ "/" ++ e.relPath)) ∈
          closeHandler projectId distDir exitCode (some files) uploadOk mimeLookup) ∧
    (∀ key ct,
      RunnerEvent.s3Upload key ct ∈
          closeHandler projectId distDir exitCode (some files) uploadOk mimeLookup →
      ∃ e ∈ files, e.isDir = false ∧
        key = artifactKeyPrefix projectId ++ e.relPath ∧
        ct = mimeLookup (distDir ++ "/" ++ e.relPath)) := by
  have htrace : closeHandler projectId distDir exitCode (some files) uploadOk mimeLookup =
      RunnerEvent.publishBuildComplete exitCode ::
        happyUploadEvents projectId distDir mimeLookup files ++
        [RunnerEvent.publishUploadComplete, RunnerEvent.exitProcess 0] := by
    rw [closeHandler, uploadFiles_happy projectId distDir uploadOk mimeLookup files hok]
    simp
  constructor
  · intro e he hdir
    rw [htrace]
    have hmem1 : RunnerEvent.publishUploading (distDir ++ "/" ++ e.relPath) ∈
        happyUploadEvents projectId distDir mimeLookup files := by
      simp only [happyUploadEvents, List.mem_flatMap]
      exact ⟨e, he, by simp [hdir]⟩
    have hmem2 : RunnerEvent.s3Upload (artifactKeyPrefix projectId ++ e.relPath)
        (mimeLookup (distDir ++ "/" ++ e.relPath)) ∈
        happyUploadEvents projectId distDir mimeLookup files := by
      simp only [happyUploadEvents, List.mem_flatMap]
      exact ⟨e, he, by simp [hdir]⟩
    exact ⟨List.mem_cons_of_mem _ (List.mem_append_left _ hmem1),
           List.mem_cons_of_mem _ (List.mem_append_left _ hmem2)⟩
  · intro key ct hmem
    rw [htrace] at hmem
    rcases List.mem_cons.mp hmem with h | h
    · exact absurd h (by simp)
    rcases List.mem_append.mp h with h | h
    · simp only [happyUploadEvents, List.mem_flatMap] at h
      obtain ⟨e, he, hin⟩ := h
      by_cases hd : e.isDir = true
      · simp [hd] at hin
      · have hdir : e.isDir = false := by simpa using hd
        simp only [hdir, Bool.false_eq_true, if_false] at hin
        rcases List.mem_cons.mp hin with h1 | h1
        · exact absurd h1 (by simp)
        · rcases List.mem_cons.mp h1 with h2 | h2
          · exact ⟨e, he, hdir, (RunnerEvent.s3Upload.inj h2).1,
              (RunnerEvent.s3Upload.inj h2).2⟩
          · simp at h2
    · rcases List.mem_cons.mp h with h1 | h1
      · exact absurd h1 (by simp)
      · simp at h1

/-- Witness for the amended C4 on a concrete listing with a nested file, a
directory entry, and one extension without a content type. -/
theorem runner_uploads_every_regular_file_witness :
    RunnerEvent.s3Upload "__outputs/p1/assets/app.js" (some "application/javascript") ∈
        closeHandler "p1" "dist" 0
          (some [⟨"index.html", false⟩, ⟨"assets", true⟩, ⟨"assets/app.js", false⟩])
          (fun _ => true)
          (fun p => if p = "dist/assets/app.js" then some "application/javascript"
                    else if p = "dist/index.html" then some "text/html" else none) := by
  exact ((runner_uploads_every_regular_file "p1" "dist" 0
    [⟨"index.html", false⟩, ⟨"assets", true⟩, ⟨"assets/app.js", false⟩]
    (fun _ => true)
    (fun p => if p = "dist/assets/app.js" then some "application/javascript"
              else if p = "dist/index.html" then some "text/html" else none)
    (by decide)).1 ⟨"assets/app.js", false⟩ (by decide) rfl).2

/-! ## Log Publisher (script.js `publishLog`)

The function wraps `await producer.connect(); await producer.send(...)`
in one `try/catch` whose `catch` only logs the error — it neither rethrows
nor retries.  `connectOk`/`sendOk` are the outcomes of the two awaited
calls; the send is reached only when the connect succeeded. -/

/-- Observable step of one `publishLog` call. -/
inductive PubEvent where
  | connectAttempt
  | sendAttempt
  | errorLogged
deriving DecidableEq

/-- Body of the `try` block: connect, then a single send of the one-message
`{PROJECT_ID, DEPLOYEMENT_ID, log}` record to topic "build-logs".
Returns the emitted events and whether the body completed without
throwing. -/
def publishLogBody (connectOk sendOk : Bool) : List PubEvent × Bool :=
  if connectOk then
    if sendOk then ([.connectAttempt, .sendAttempt], true)
    else ([.connectAttempt, .sendAttempt], false)
  else ([.connectAttempt], false)

/-- The whole `publishLog` call: the `catch` turns a throwing body into a
logged error, and the call always returns normally (second component
`true` means "returned to the caller without propagating an exception"). -/
def publishLog (connectOk sendOk : Bool) : List PubEvent × Bool :=
  let r := publishLogBody connectOk sendOk
  if r.2 then (r.1, true) else (r.1 ++ [.errorLogged], true)

/-- C8: for every outcome of the broker connect and send, `publishLog`
makes at most one send attempt, always returns normally to the Build
Runner (no propagated failure), and on any failing outcome the error has
been logged. -/
theorem publishLog_fire_and_forget (connectOk sendOk : Bool) :
    (publishLog connectOk sendOk).2 = true ∧
      ((publishLog connectOk sendOk).1.count PubEvent.sendAttempt ≤ 1) ∧
      (connectOk = false ∨ sendOk = false →
        PubEvent.errorLogged ∈ (publishLog connectOk sendOk).1) := by
  revert connectOk sendOk
  decide

/-- Witness for C8 at a failing connect: one connect attempt, no send, a
logged error, and a normal return. -/
theorem publishLog_fire_and_forget_witness :
    (publishLog false true).2 = true ∧
      PubEvent.errorLogged ∈ (publishLog false true).1 := by
  exact ⟨(publishLog_fire_and_forget false true).1,
    (publishLog_fire_and_forget false true).2.2 (Or.inl rfl)⟩

/-! ## Webhook signature verification (webhook/route.ts `verifyGitHubWebhook`)

The handler reads the `x-hub-signature-256` header; a missing header or a
missing `GITHUB_WEBHOOK_SECRET` returns `false`.  Otherwise it computes
`digest = "sha256=" + hex(hmacSha256(secret, payload))` and calls
`crypto.timingSafeEqual(Buffer.from(digest), Buffer.from(header))`.
`timingSafeEqual` compares byte-for-byte in constant time when the two
buffers have equal length, but THROWS a `RangeError` when their byte
lengths differ — it does not return `false` in that case.

The HMAC-SHA256 primitive is a library call; it enters the embedding as a
function parameter `hmacHex` (secret → payload → lowercase hex digest).
Every real hex-encoded SHA-256 digest is 64 ASCII characters, so the
computed `digest` is 71 bytes. -/

/-- Result of `verifyGitHubWebhook`: `Except.error ()` models an exception
escaping the function (the `timingSafeEqual` length mismatch), `.ok b` a
normal boolean return. -/
def verifyGitHubWebhook (hmacHex : String → String → String)
    (signatureHeader : Option String) (secret : Option String)
    (payload : String) : Except Unit Bool :=
  match signatureHeader with
  | none => .ok false
  | some header =>
    match secret with
    | none => .ok false
    | some sec =>
      let digest := "sha256=" ++ hmacHex sec payload
      if utf8Len digest = utf8Len header then .ok (digest == header)
      else .error ()

/-- Stand-in HMAC whose output has the shape of every real hex-encoded
SHA-256 digest: 64 hex characters. -/
def cexHmacHex : String → String → String :=
  fun _ _ => String.mk (List.replicate 64 'a')

/-- C5 counterexample: a request whose signature header ("sha256=bad",
10 bytes) differs from the computed 71-byte digest.  The claim says any
mismatched digest makes verification return false; the code instead throws
(the `timingSafeEqual` length precondition), so the caller sees an
exception, not `false`. -/
theorem verify_length_mismatch_throws_cex :
    verifyGitHubWebhook cexHmacHex (some "sha256=bad") (some "sec") "body" =
        .error () ∧
      ("sha256=" ++ cexHmacHex "sec" "body") ≠ "sha256=bad" := by
  constructor
  · rfl
  · decide

/-- Helper: the byte-length fold with an arbitrary accumulator. -/
theorem foldlUtf8_init (acc : Nat) (xs : List Char) :
    xs.foldl (fun n c => n + c.utf8Size) acc =
      acc + xs.foldl (fun n c => n + c.utf8Size) 0 := by
  induction xs generalizing acc with
  | nil => simp
  | cons y ys ihy =>
    simp only [List.foldl_cons]
    rw [ihy (acc + y.utf8Size), ihy (0 + y.utf8Size)]
    omega

/-- Helper: byte length distributes over string append. -/
theorem utf8Len_append (s t : String) :
    utf8Len (s ++ t) = utf8Len s + utf8Len t := by
  rw [utf8Len, utf8Len, utf8Len, String.data_append, List.foldl_append]
  rw [foldlUtf8_init]

/-- C5 as amended: verification fails closed on a missing header or a
missing secret (returns false); with both present it compares the 71-byte
string `"sha256=" + hex digest` against the header with `timingSafeEqual`:
for a header of the same byte length it returns exactly "header equals
digest" (true precisely on a correct signature, false on an equal-length
mismatch), and for a header of any other byte length it THROWS instead of
returning false.  Stated for every HMAC implementation producing 64-byte
hex output, as SHA-256 hex digests are. -/
theorem verify_cases (hmacHex : String → String → String)
    (hlen : ∀ sec payload, utf8Len (hmacHex sec payload) = 64)
    (header : Option String) (sec payload : String) :
    verifyGitHubWebhook hmacHex none (some sec) payload = .ok false ∧
      verifyGitHubWebhook hmacHex header none payload = .ok false ∧
      (∀ h, utf8Len h = 71 →
        verifyGitHubWebhook hmacHex (some h) (some sec) payload =
          .ok (("sha256=" ++ hmacHex sec payload) == h)) ∧
      (∀ h, utf8Len h ≠ 71 →
        verifyGitHubWebhook hmacHex (some h) (some sec) payload = .error ()) := by
  have hdig : ∀ p, utf8Len ("sha256=" ++ hmacHex sec p) = 71 := by
    intro p
    rw [utf8Len_append, hlen]
    decide
  refine ⟨rfl, ?_, ?_, ?_⟩
  · cases header <;> rfl
  · intro h hh
    rw [verifyGitHubWebhook]
    simp only [hdig, hh, if_true]
  · intro h hh
    rw [verifyGitHubWebhook]
    simp only [hdig]
    rw [if_neg (fun hc => hh (by rw [← hc]))]

/-- Witness for the amended C5: with the stand-in 64-hex-character HMAC, a
header equal to the computed digest verifies to `.ok true`. -/
theorem verify_cases_witness :
    verifyGitHubWebhook cexHmacHex
        (some ("sha256=" ++ cexHmacHex "sec" "body")) (some "sec") "body" =
      .ok true := by
  have h := (verify_cases cexHmacHex
    (fun _ _ => show utf8Len (String.mk (List.replicate 64 'a')) = 64 by decide)
    (some "ignored") "sec" "body").2.2.1
    ("sha256=" ++ cexHmacHex "sec" "body") (by decide)
  rw [h]
  simp

/-! ## Webhook dispatcher response (webhook/route.ts `POST`)

Every return in the handler is `NextResponse.json(body)` with NO second
(init) argument, so the HTTP status of the response is the Next.js default
200 in every branch; the `status` field inside the JSON body is the only
place 403/500 appear.  The handler runs inside one `try/catch`: a thrown
verification (see C5), a `JSON.parse` failure, or a failure of the
downstream calls (`fetchGitLatestCommit`, the `/api/deploy` fetch, its
`.json()`) all land in the `catch`, which returns the body-status-500
response.  `verified` is the outcome of `verifyGitHubWebhook`, `parseOk`
the outcome of `JSON.parse(payload)`, `event` the parsed `body.event`,
`projectFound` the outcome of the Prisma lookup, and `laterOk` whether the
remaining awaited calls succeed. -/

/-- HTTP response as produced by `NextResponse.json`: the real HTTP status
plus the `{status, message}` JSON body. -/
structure JsonResponse where
  httpStatus : Nat
  status : Nat
  message : String
deriving DecidableEq

/-- Model of `NextResponse.json(body)` called without an init argument:
the HTTP status defaults to 200 whatever the body says. -/
def nextResponseJson (status : Nat) (message : String) : JsonResponse :=
  { httpStatus := 200, status := status, message := message }

/-- The dispatcher `POST` handler, branch for branch. -/
def webhookPOST (verified : Except Unit Bool) (parseOk : Bool)
    (event : String) (projectFound : Bool) (laterOk : Bool) : JsonResponse :=
  match verified with
  | .error _ => nextResponseJson 500 "Internal server error"
  | .ok false => nextResponseJson 403 "Unauthorized"
  | .ok true =>
    if parseOk = false then nextResponseJson 500 "Internal server error"
    else if event ≠ "push" then nextResponseJson 200 "Not a push event"
    else if projectFound = false then
      nextResponseJson 200 "No matching project found for the push event"
    else if laterOk = false then nextResponseJson 500 "Internal server error"
    else nextResponseJson 200 "Webhook processed successfully"

/-- C6 counterexample: on a signature-verification failure the claim says
the HTTP response status is 403; the code returns
`NextResponse.json({status: 403, ...})` with no init argument, so the HTTP
status is 200 and only the body carries 403. -/
theorem webhook_http_status_cex :
    (webhookPOST (.ok false) true "push" true true).httpStatus = 200 ∧
      (webhookPOST (.ok false) true "push" true true).status = 403 ∧
      (webhookPOST (.ok false) true "push" true true).httpStatus ≠ 403 := by
  refine ⟨rfl, rfl, by decide⟩

/-- C6 as amended: the HTTP status of every dispatcher response is 200; the
JSON body's `status` field is what carries the classification — 403 exactly
on signature failure, 200 for handled requests including the benign no-ops
(non-push events, no matching project), and 500 for a thrown verification,
a payload-parse failure, or a failed downstream call. -/
theorem webhook_response_statuses (verified : Except Unit Bool)
    (parseOk : Bool) (event : String) (projectFound : Bool) (laterOk : Bool) :
    (webhookPOST verified parseOk event projectFound laterOk).httpStatus = 200 ∧
      ((webhookPOST verified parseOk event projectFound laterOk).status = 403 ↔
        verified = .ok false) ∧
      (verified = .error () →
        (webhookPOST verified parseOk event projectFound laterOk).status = 500) ∧
      (verified = .ok true → parseOk = true → event ≠ "push" →
        (webhookPOST verified parseOk event projectFound laterOk).status = 200) ∧
      (verified = .ok true → parseOk = true → projectFound = false →
        (webhookPOST verified parseOk event projectFound laterOk).status = 200) ∧
      (verified = .ok true → parseOk = true → event = "push" →
          projectFound = true → laterOk = true →
        (webhookPOST verified parseOk event projectFound laterOk).status = 200) := by
  match verified with
  | .error () =>
    refine ⟨rfl, ?_, fun _ => rfl, ?_, ?_, ?_⟩
    · simp [webhookPOST, nextResponseJson]
    · intro h
      cases h
    · intro h
      cases h
    · intro h
      cases h
  | .ok false =>
    refine ⟨rfl, ?_, ?_, ?_, ?_, ?_⟩
    · simp [webhookPOST, nextResponseJson]
    · intro h
      cases h
    · intro h
      cases h
    · intro h
      cases h
    · intro h
      cases h
  | .ok true =>
    constructor
    · rw [webhookPOST]
      by_cases hp : parseOk = false
      · simp [hp, nextResponseJson]
      · simp only [hp, if_false]
        by_cases he : event = "push"
        · simp only [he, ne_eq, not_true_eq_false, if_false]
          by_cases hf : projectFound = false
          · simp [hf, nextResponseJson]
          · simp only [hf, if_false]
            by_cases hl : laterOk = false
            · simp [hl, nextResponseJson]
            · simp [hl, nextResponseJson]
        · simp [he, nextResponseJson]
    · refine ⟨?_, ?_, ?_, ?_, ?_⟩
      · constructor
        · intro habs
          exfalso
          revert habs
          rw [webhookPOST]
          by_cases hp : parseOk = false
          · simp [hp, nextResponseJson]
          · simp only [hp, if_false]
            by_cases he : event = "push"
            · simp only [he, ne_eq, not_true_eq_false, if_false]
              by_cases hf : projectFound = false
              · simp [hf, nextResponseJson]
              · simp only [hf, if_false]
                by_cases hl : laterOk = false
                · simp [hl, nextResponseJson]
                · simp [hl, nextResponseJson]
            · simp [he, nextResponseJson]
        · intro h
          cases h
      · intro h
        cases h
      · intro hv hp he
        rw [webhookPOST]
        simp [hp, he, nextResponseJson]
      · intro hv hp hf
        rw [webhookPOST]
        by_cases he : event = "push"
        · simp [hp, he, hf, nextResponseJson]
        · simp [hp, he, nextResponseJson]
      · intro hv hp he hf hl
        rw [webhookPOST]
        simp [hp, he, hf, hl, nextResponseJson]

/-- Witness for the amended C6: a non-push event with a valid signature is
acknowledged with HTTP 200 and body status 200. -/
theorem webhook_response_statuses_witness :
    (webhookPOST (.ok true) true "ping" true true).httpStatus = 200 ∧
      (webhookPOST (.ok true) true "ping" true true).status = 200 := by
  exact ⟨(webhook_response_statuses (.ok true) true "ping" true true).1,
    (webhook_response_statuses (.ok true) true "ping" true true).2.2.2.1
      rfl rfl (by decide)⟩

/-! ## Deployment payload assembly (webhook/route.ts `POST`, matched-push path)

On a verified push matching a project, the handler computes
`branchName = body.ref.replace("refs/heads/", "")` (JavaScript `replace`
with a string pattern: first occurrence only), `commitHash = body.after`,
and assembles `deploymentPayload` with `buildCommand = project?.buildCommand
|| "npm run build"`, `installCommand = project?.installCommand ||
"npm install"`, `projectRootDir = project?.projectRootDir || "./"`, and
`environmentVariables = project.deployments[0]?.environmentVariables || {}`.
The Prisma lookup `include: {deployments: {...\x7d\x7d` requests NO ordering, so
`deployments` is the store-returned list and index 0 is simply its first
element. -/

/-- Deployment row as returned inside the project lookup (only the fields
the handler touches, plus the creation time the spec's "most recent"
refers to). -/
structure DeploymentRec where
  environmentVariables : Option String
  createdAt : Nat
deriving DecidableEq

/-- Project row as returned by the Prisma lookup, with its included
`deployments` list in store-returned order. -/
structure ProjectRec where
  id : String
  gitRepoUrl : String
  installCommand : Option String
  buildCommand : Option String
  projectRootDir : Option String
  deployments : List DeploymentRec
deriving DecidableEq

/-- The `deploymentPayload` object the dispatcher assembles.
`environmentVariables = none` models the empty-object fallback of
`... || {}`. -/
structure DeploymentPayload where
  projectId : String
  gitBranchName : String
  gitRepoUrl : String
  gitCommitHash : String
  buildCommand : String
  installCommand : String
  projectRootDir : String
  environmentVariables : Option String
deriving DecidableEq

/-- Assembly of the deployment payload, field for field from the source. -/
def buildDeploymentPayload (project : ProjectRec) (ref after : String) :
    DeploymentPayload :=
  { projectId := project.id
    gitBranchName := jsReplaceFirst ref "refs/heads/" ""
    gitRepoUrl := project.gitRepoUrl
    gitCommitHash := after
    buildCommand := jsOrString project.buildCommand "npm run build"
    installCommand := jsOrString project.installCommand "npm install"
    projectRootDir := jsOrString project.projectRootDir "./"
    environmentVariables :=
      jsOrEmptyObj (project.deployments.head?.bind
        (fun d => d.environmentVariables)) }

/-- Following the claim's words: the deployment record with the greatest
creation time ("the project's most recent deployment record"), for
comparison with what the code picks. -/
def specMostRecentDeployment : List DeploymentRec → Option DeploymentRec
  | [] => none
  | d :: rest =>
    match specMostRecentDeployment rest with
    | none => some d
    | some m => if m.createdAt ≤ d.createdAt then some d else some m

/-- Project used in the C9 counterexample: two deployments, the
store-returned list carrying the older one first. -/
def cexProject : ProjectRec :=
  { id := "proj-1"
    gitRepoUrl := "https://github.com/u/r.git"
    installCommand := none
    buildCommand := none
    projectRootDir := none
    deployments := [⟨some "OLD_ENV", 100⟩, ⟨some "NEW_ENV", 200⟩] }

/-- C9 counterexample: with the store returning the older deployment first
(the lookup requests no ordering), the code takes `deployments[0]` and so
ships the OLDER deployment's environment variables, not the most recent
record's, while every other claimed field does come out as claimed. -/
theorem payload_env_not_most_recent_cex :
    (buildDeploymentPayload cexProject "refs/heads/main" "abc123").environmentVariables =
        some "OLD_ENV" ∧
      (specMostRecentDeployment cexProject.deployments).bind
          (fun d => d.environmentVariables) = some "NEW_ENV" ∧
      ("OLD_ENV" : String) ≠ "NEW_ENV" ∧
      (buildDeploymentPayload cexProject "refs/heads/main" "abc123").gitBranchName =
        "main" ∧
      (buildDeploymentPayload cexProject "refs/heads/main" "abc123").gitCommitHash =
        "abc123" ∧
      (buildDeploymentPayload cexProject "refs/heads/main" "abc123").installCommand =
        "npm install" := by
  decide

/-- Helper: a matched Boolean prefix really is a list prefix. -/
theorem lStartsWith_append_drop (pat l : List Char)
    (h : lStartsWith pat l = true) : pat ++ l.drop pat.length = l := by
  induction pat generalizing l with
  | nil => simp
  | cons a xs ih =>
    cases l with
    | nil => simp [lStartsWith] at h
    | cons b ys =>
      rw [lStartsWith, Bool.and_eq_true] at h
      obtain ⟨hab, hrest⟩ := h
      have hab2 : a = b := eq_of_beq hab
      simp only [List.length_cons, List.drop_succ_cons, List.cons_append,
        hab2]
      rw [ih ys hrest]

/-- Helper: when the pattern matches at position 0, JavaScript `replace`
drops it and prepends the replacement. -/
theorem jsReplaceFirstL_startsWith (pat rep l : List Char)
    (h : lStartsWith pat l = true) (hne : pat ≠ []) :
    jsReplaceFirstL pat rep l = rep ++ l.drop pat.length := by
  cases l with
  | nil =>
    cases pat with
    | nil => exact absurd rfl hne
    | cons a xs => simp [lStartsWith] at h
  | cons c rest =>
    rw [jsReplaceFirstL, if_pos h]

/-- C9 as amended: for every verified push whose ref starts with
"refs/heads/" and whose project matches, the payload carries the project
id, the repo URL, the branch with the ref prefix stripped (so prepending
"refs/heads/" to the branch gives back the ref), the `after` commit hash,
the stored install/build/root values with fallbacks "npm install",
"npm run build" and "./" when the stored value is absent — and the
environment variables of the FIRST deployment in the store-returned list
(the lookup requests no ordering, so this need not be the most recent
record), empty when the project has no deployments. -/
theorem payload_assembly (project : ProjectRec) (ref after : String)
    (href : strStartsWith ref "refs/heads/" = true) :
    (buildDeploymentPayload project ref after).projectId = project.id ∧
      "refs/heads/" ++ (buildDeploymentPayload project ref after).gitBranchName =
        ref ∧
      (buildDeploymentPayload project ref after).gitRepoUrl =
        project.gitRepoUrl ∧
      (buildDeploymentPayload project ref after).gitCommitHash = after ∧
      (project.installCommand = none →
        (buildDeploymentPayload project ref after).installCommand =
          "npm install") ∧
      (∀ s, project.installCommand = some s → s ≠ "" →
        (buildDeploymentPayload project ref after).installCommand = s) ∧
      (project.buildCommand = none →
        (buildDeploymentPayload project ref after).buildCommand =
          "npm run build") ∧
      (∀ s, project.buildCommand = some s → s ≠ "" →
        (buildDeploymentPayload project ref after).buildCommand = s) ∧
      (project.projectRootDir = none →
        (buildDeploymentPayload project ref after).projectRootDir = "./") ∧
      (project.deployments = [] →
        (buildDeploymentPayload project ref after).environmentVariables =
          none) ∧
      (∀ d rest, project.deployments = d :: rest →
        (buildDeploymentPayload project ref after).environmentVariables =
          jsOrEmptyObj d.environmentVariables) := by
  rw [strStartsWith] at href
  refine ⟨rfl, ?_, rfl, rfl, ?_, ?_, ?_, ?_, ?_, ?_, ?_⟩
  · show "refs/heads/" ++ jsReplaceFirst ref "refs/heads/" "" = ref
    apply String.ext
    rw [String.data_append, jsReplaceFirst]
    show "refs/heads/".data ++ jsReplaceFirstL "refs/heads/".data "".data ref.data =
      ref.data
    rw [jsReplaceFirstL_startsWith "refs/heads/".data "".data ref.data href
      (by decide)]
    show "refs/heads/".data ++ ref.data.drop ("refs/heads/".data.length) = ref.data
    exact lStartsWith_append_drop "refs/heads/".data ref.data href
  · intro h
    show jsOrString project.installCommand "npm install" = "npm install"
    rw [h, jsOrString]
  · intro s hs hne
    show jsOrString project.installCommand "npm install" = s
    rw [hs, jsOrString, if_neg hne]
  · intro h
    show jsOrString project.buildCommand "npm run build" = "npm run build"
    rw [h, jsOrString]
  · intro s hs hne
    show jsOrString project.buildCommand "npm run build" = s
    rw [hs, jsOrString, if_neg hne]
  · intro h
    show jsOrString project.projectRootDir "./" = "./"
    rw [h, jsOrString]
  · intro h
    show jsOrEmptyObj (project.deployments.head?.bind
      (fun d => d.environmentVariables)) = none
    rw [h]
    rfl
  · intro d rest h
    show jsOrEmptyObj (project.deployments.head?.bind
      (fun d => d.environmentVariables)) = jsOrEmptyObj d.environmentVariables
    rw [h]
    rfl

/-- Witness for the amended C9 on the scenario of the spec: ref
"refs/heads/main", commit "abc123", project with no stored commands. -/
theorem payload_assembly_witness :
    "refs/heads/" ++
        (buildDeploymentPayload cexProject "refs/heads/main" "abc123").gitBranchName =
      "refs/heads/main" ∧
      (buildDeploymentPayload cexProject "refs/heads/main" "abc123").installCommand =
        "npm install" := by
  have h := payload_assembly cexProject "refs/heads/main" "abc123" (by decide)
  exact ⟨h.2.1, h.2.2.2.2.1 rfl⟩

/-! ## Object-store key prefixes (project/route.ts PATCH and DELETE vs script.js)

The subdomain-rename PATCH computes `oldPrefix = "__outputs/" + oldSubDomain
+ "/"` (and the analogous new prefix) and copies that folder; the DELETE
flow computes `folderPrefix = "__outputs/" + project.subDomain + "/"` and
deletes it.  The Build Runner, however, uploads under
`"__outputs/" + PROJECT_ID + "/"` (see `artifactKeyPrefix`).  Project ids
are UUIDs and subdomains are generated word slugs, so neither contains a
slash. -/

/-- Key prefix used by both the PATCH rename (`oldPrefix`/`newPrefix`) and
the DELETE flow (`folderPrefix`): `__outputs/<subDomain>/`. -/
def subdomainPrefix (subDomain : String) : String :=
  "__outputs/" ++ subDomain ++ "/"

/-- Helper: two slash-free strings followed by a slash are prefix-comparable
only when equal. -/
theorem slashfree_slash_prefix_eq (a b : List Char)
    (ha : '/' ∉ a) (hb : '/' ∉ b)
    (h : a ++ ['/'] <+: b ++ ['/']) : a = b := by
  induction a generalizing b with
  | nil =>
    cases b with
    | nil => rfl
    | cons y ys =>
      simp only [List.nil_append, List.cons_append] at h
      obtain ⟨hy, _⟩ := List.cons_prefix_cons.mp h
      exact absurd (hy ▸ List.mem_cons_self y ys) hb
  | cons x xs ih =>
    cases b with
    | nil =>
      simp only [List.cons_append, List.nil_append] at h
      obtain ⟨hx, _⟩ := List.cons_prefix_cons.mp h
      exact absurd (hx ▸ List.mem_cons_self x xs) ha
    | cons y ys =>
      simp only [List.cons_append] at h
      obtain ⟨hxy, htail⟩ := List.cons_prefix_cons.mp h
      have ha2 : '/' ∉ xs := fun hm => ha (List.mem_cons_of_mem _ hm)
      have hb2 : '/' ∉ ys := fun hm => hb (List.mem_cons_of_mem _ hm)
      rw [hxy, ih ys ha2 hb2 htail]

/-- Helper: the character data of `__outputs/<x>/`, reassociated to expose
the shared `__outputs/` prefix. -/
theorem outputsPrefix_data (x : String) :
    ("__outputs/" ++ x ++ "/" : String).data =
      "__outputs/".data ++ (x.data ++ ['/']) := by
  rw [String.data_append, String.data_append, List.append_assoc]

/-- C10: for every project whose subdomain differs from its project id
(both slash-free, as UUIDs and generated slugs are), the
`__outputs/<subDomain>/` prefix that the PATCH rename copies and the DELETE
flow deletes is disjoint from the `__outputs/<PROJECT_ID>/` prefix the
Build Runner uploads under: no object key lies under both. -/
theorem subdomain_projectId_prefixes_disjoint (projectId subDomain : String)
    (hne : subDomain ≠ projectId)
    (hs : '/' ∉ subDomain.data) (hp : '/' ∉ projectId.data) (key : String) :
    ¬((subdomainPrefix subDomain).data <+: key.data ∧
      (artifactKeyPrefix projectId).data <+: key.data) := by
  rintro ⟨h1, h2⟩
  have heq : subDomain = projectId := by
    apply String.ext
    have hcomp :
        (subdomainPrefix subDomain).data <+: (artifactKeyPrefix projectId).data ∨
          (artifactKeyPrefix projectId).data <+: (subdomainPrefix subDomain).data := by
      rcases Nat.le_total (subdomainPrefix subDomain).data.length
          (artifactKeyPrefix projectId).data.length with hl | hl
      · exact Or.inl (List.prefix_of_prefix_length_le h1 h2 hl)
      · exact Or.inr (List.prefix_of_prefix_length_le h2 h1 hl)
    rcases hcomp with hc | hc
    · rw [subdomainPrefix, artifactKeyPrefix, outputsPrefix_data,
        outputsPrefix_data] at hc
      have hc2 := (List.prefix_append_right_inj _).mp hc
      exact slashfree_slash_prefix_eq subDomain.data projectId.data hs hp hc2
    · rw [subdomainPrefix, artifactKeyPrefix, outputsPrefix_data,
        outputsPrefix_data] at hc
      have hc2 := (List.prefix_append_right_inj _).mp hc
      exact (slashfree_slash_prefix_eq projectId.data subDomain.data hp hs hc2).symm
  exact hne heq

/-- Witness for C10: concrete slug subdomain, UUID-like project id, and an
object key under the subdomain prefix that is not under the artifact
prefix. -/
theorem subdomain_projectId_prefixes_disjoint_witness :
    ¬((subdomainPrefix "my-app").data <+:
        ("__outputs/my-app/index.html" : String).data ∧
      (artifactKeyPrefix "41f8a2").data <+:
        ("__outputs/my-app/index.html" : String).data) :=
  subdomain_projectId_prefixes_disjoint "41f8a2" "my-app" (by decide)
    (by decide) (by decide) "__outputs/my-app/index.html"
